import Mathlib

/-!
Verification of the fractal-tree generator (src/src/App.tsx).

The geometry builder, color resolver, sway transform, frame renderer and
animation driver of the application are embedded shallowly: numeric values
are idealised as real numbers (rationals for the discrete color-ratio
computation, naturals for the grow counter), the per-node call to the
random generator is modelled by an oracle indexed by the recursion path,
and the mutable refs of the React component become an explicit state
record transformed by the entry-point functions.
-/

namespace FractalTree

/-- Background theme identifiers, from the ThemeBG type in App.tsx. -/
inductive ThemeBG
  | night
  | sunset
  | snow
deriving DecidableEq

/-- Color preset identifiers, from the ColorPreset type in App.tsx. -/
inductive ColorPreset
  | spring
  | autumn
  | winter
  | neon
deriving DecidableEq

/-- The Settings record of App.tsx. Slider values are idealised as reals,
except depth (an integer slider compared with 0 and decremented) and
growSpeed (an integer number of segments revealed per frame). -/
structure Settings where
  depth : ℤ
  angle : ℝ
  length : ℝ
  shrink : ℝ
  thickness : ℝ
  randomness : ℝ
  leafMode : Bool
  animateWind : Bool
  windStrength : ℝ
  windSpeed : ℝ
  growAnimation : Bool
  growSpeed : ℕ
  preset : ColorPreset

/-- The Segment record of App.tsx: endpoints in canvas pixel space,
stroke thickness, remaining recursion depth and the build-time total. -/
structure Segment where
  x1 : ℝ
  y1 : ℝ
  x2 : ℝ
  y2 : ℝ
  thick : ℝ
  depthLeft : ℤ
  totalDepth : ℤ

/-- The clamp helper of App.tsx: max(min, Math.min(max, n)). -/
def clamp {α : Type} [LinearOrder α] (n mn mx : α) : α :=
  max mn (min mx n)

/-- The color quadruple returned by presetColors in App.tsx. -/
structure PresetColors where
  trunk : String
  branch : String
  leaf : String
  glow : Bool

/-- The presetColors table of App.tsx (the default arm repeats spring and
is unreachable for a well-typed preset). -/
def presetColors : ColorPreset → PresetColors
  | .spring => ⟨"#a16207", "#16a34a", "#22c55e", false⟩
  | .autumn => ⟨"#92400e", "#ea580c", "#f59e0b", false⟩
  | .winter => ⟨"#6b7280", "#94a3b8", "#e5e7eb", false⟩
  | .neon => ⟨"#a855f7", "#22d3ee", "#f472b6", true⟩

/-- The branchColor function of App.tsx. In the source it reads leafMode
and preset from the ambient settings; here they are passed explicitly.
The depth ratio is exact rational arithmetic. -/
def branchColor (leafMode : Bool) (preset : ColorPreset)
    (depthLeft totalDepth : ℤ) : String :=
  let ratio : ℚ := (depthLeft : ℚ) / (totalDepth : ℚ)
  let c := presetColors preset
  if !leafMode then c.branch
  else if ratio > 0.55 then c.trunk
  else if ratio > 0.25 then c.branch
  else c.leaf

/-- The getWindAngle function of App.tsx: zero when wind animation is off,
otherwise a global sine phase scaled by windStrength and by the leaf
factor 1 - depthLeft/totalDepth. -/
noncomputable def getWindAngle (cfg : Settings) (windTime : ℝ)
    (depthLeft totalDepth : ℤ) : ℝ :=
  if !cfg.animateWind then 0
  else
    let leafFactor : ℝ := 1 - (depthLeft : ℝ) / (totalDepth : ℝ)
    let sway := cfg.windStrength * leafFactor
    Real.sin windTime * sway

/-- The per-node random perturbation (Math.random() * 2 - 1) * randomness
of App.tsx, with the random draw supplied by an oracle indexed by the
recursion path (false = left child, true = right child). -/
def randAngle (cfg : Settings) (rnd : List Bool → ℝ) (path : List Bool) : ℝ :=
  (rnd path * 2 - 1) * cfg.randomness

open scoped Classical in
/-- The recursive collect function nested in buildSegments in App.tsx:
stop when depthLeft <= 0 or len < 2, otherwise emit one segment from the
current point along the perturbed direction and recurse twice (left at
angleDeg - angle, then right at angleDeg + angle) with len * shrink and
thick * 0.75. The emitted list is in push order: node, left subtree,
right subtree. -/
noncomputable def collect (cfg : Settings) (rnd : List Bool → ℝ)
    (path : List Bool) (x y len angleDeg : ℝ) (depthLeft : ℤ)
    (thick : ℝ) : List Segment :=
  if h : depthLeft ≤ 0 ∨ len < 2 then []
  else
    let randomAngle := randAngle cfg rnd path
    let a := (angleDeg + randomAngle) * Real.pi / 180
    let x2 := x + len * Real.cos a
    let y2 := y - len * Real.sin a
    let seg : Segment := ⟨x, y, x2, y2, thick, depthLeft, cfg.depth⟩
    let newLen := len * cfg.shrink
    let newThick := thick * 0.75
    seg ::
      (collect cfg rnd (path ++ [false]) x2 y2 newLen
        (angleDeg - cfg.angle) (depthLeft - 1) newThick ++
      collect cfg rnd (path ++ [true]) x2 y2 newLen
        (angleDeg + cfg.angle) (depthLeft - 1) newThick)
termination_by depthLeft.toNat
decreasing_by
  · simp only [not_or, not_le] at h
    omega
  · simp only [not_or, not_le] at h
    omega

/-- The geometry part of buildSegments in App.tsx: root at the horizontal
canvas center, 20 pixels above the bottom edge, initial direction 90
degrees, initial length and thickness from the settings. -/
noncomputable def buildSegmentsList (cfg : Settings) (w h : ℝ)
    (rnd : List Bool → ℝ) : List Segment :=
  collect cfg rnd [] (w / 2) (h - 20) cfg.length 90 cfg.depth cfg.thickness

/-- Math.atan2(y, x), identified with the argument of the complex number
x + y i (both have range (-pi, pi] and send the origin to 0). -/
noncomputable def atan2 (y x : ℝ) : ℝ :=
  Complex.arg ⟨x, y⟩

/-- The endpoint actually stroked by drawSegmentsFrame in App.tsx: the
stored endpoint rotated about the start point by the wind sway angle
(degrees converted to radians), with the base angle recovered by atan2
on the y-inverted direction vector. -/
noncomputable def renderedEndPoint (cfg : Settings) (windTime : ℝ)
    (s : Segment) : ℝ × ℝ :=
  let wind := getWindAngle cfg windTime s.depthLeft s.totalDepth
  let dx := s.x2 - s.x1
  let dy := s.y2 - s.y1
  let baseAngle := atan2 (-dy) dx
  let len := Real.sqrt (dx * dx + dy * dy)
  let newAngle := baseAngle + wind * Real.pi / 180
  (s.x1 + len * Real.cos newAngle, s.y1 - len * Real.sin newAngle)

/-- The reveal limit computed by drawSegmentsFrame (App.tsx lines
275-277): clamp(growIndex, 0, total) when grow animation is on, the full
segment count otherwise. -/
def revealLimit (cfg : Settings) (total g : ℕ) : ℕ :=
  if cfg.growAnimation then clamp g 0 total else total

/-- The cutoff advance at the end of drawSegmentsFrame (App.tsx lines
315-317): after drawing, add growSpeed if grow animation is on and the
counter has not yet reached the segment count. -/
def growAdvance (cfg : Settings) (total g : ℕ) : ℕ :=
  if cfg.growAnimation = true ∧ g < total then g + cfg.growSpeed else g

/-- The sequence of values of growIndexRef across ticks, starting from a
fresh build (growIndex 0) and applying the drawSegmentsFrame advance once
per frame. -/
def growIter (cfg : Settings) (total : ℕ) : ℕ → ℕ
  | 0 => 0
  | k + 1 => growAdvance cfg total (growIter cfg total k)

/-- A 2D drawing context; its presence is all the model tracks. -/
def Ctx2D : Type := Unit

/-- A canvas element: fixed pixel dimensions plus the possibly-missing 2D
context returned by getContext. -/
structure Canvas where
  width : ℝ
  height : ℝ
  context : Option Ctx2D

/-- The mutable refs of the App component: the cached segment list, the
grow counter, the wind-time accumulator and the active frame-callback
handle. -/
structure AppState where
  segments : List Segment
  growIndex : ℕ
  windTime : ℝ
  raf : Option ℕ

/-- The state effect of drawSegmentsFrame: painting aside, the only ref
it mutates is growIndexRef, via the post-draw advance. -/
def drawSegmentsFrame (cfg : Settings) (st : AppState) : AppState :=
  { st with growIndex := growAdvance cfg st.segments.length st.growIndex }

/-- The buildSegments entry point of App.tsx as a state transformer: a
silent no-op when the canvas or its 2D context is absent, otherwise the
segment list is replaced wholesale and the grow counter reset to 0. -/
noncomputable def buildSegments (cfg : Settings) (canvas : Option Canvas)
    (rnd : List Bool → ℝ) (st : AppState) : AppState :=
  match canvas with
  | none => st
  | some c =>
    match c.context with
    | none => st
    | some _ =>
      { st with
        segments := buildSegmentsList cfg c.width c.height rnd
        growIndex := 0 }

/-- The startLoop entry point of App.tsx: stopLoop cancels any previous
frame callback, then a new callback is registered only when a canvas and
context exist. It touches neither windTimeRef nor growIndexRef. -/
def startLoop (canvas : Option Canvas) (newHandle : ℕ)
    (st : AppState) : AppState :=
  let st1 := { st with raf := none }
  match canvas with
  | none => st1
  | some c =>
    match c.context with
    | none => st1
    | some _ => { st1 with raf := some newHandle }

/-- One tick of the startLoop animation loop: advance the wind-time
accumulator by 0.02 * windSpeed, then draw a frame. -/
noncomputable def loopTick (cfg : Settings) (st : AppState) : AppState :=
  drawSegmentsFrame cfg { st with windTime := st.windTime + 0.02 * cfg.windSpeed }

/-- The drawTreeOnce entry point of App.tsx: rebuild, then (if a canvas
and context exist) set the grow counter to the full segment count and
draw one frame. -/
noncomputable def drawTreeOnce (cfg : Settings) (canvas : Option Canvas)
    (rnd : List Bool → ℝ) (st : AppState) : AppState :=
  let st1 := buildSegments cfg canvas rnd st
  match canvas with
  | none => st1
  | some c =>
    match c.context with
    | none => st1
    | some _ =>
      drawSegmentsFrame cfg { st1 with growIndex := st1.segments.length }

/-- The downloadPNG entry point of App.tsx: with no canvas it returns
silently; otherwise it triggers a download of fractal-tree.png. It never
mutates the app state, which is returned unchanged alongside the
download it performed. -/
def downloadPNG (canvas : Option Canvas) (st : AppState) :
    AppState × Option String :=
  match canvas with
  | none => (st, none)
  | some _ => (st, some "fractal-tree.png")

/-- The dependency list of the rebuild effect (App.tsx lines 391-401):
the shape-affecting configuration fields. A rebuild fires exactly when
this projection changes. -/
def shapeDeps (cfg : Settings) : ℤ × ℝ × ℝ × ℝ × ℝ × ℝ :=
  (cfg.depth, cfg.angle, cfg.length, cfg.shrink, cfg.thickness, cfg.randomness)

/-- The initial settings of the App component (App.tsx lines 44-62). -/
noncomputable def defaultSettings : Settings :=
  { depth := 11
    angle := 25
    length := 150
    shrink := 0.67
    thickness := 10
    randomness := 2
    leafMode := true
    animateWind := true
    windStrength := 4
    windSpeed := 1.2
    growAnimation := true
    growSpeed := 80
    preset := .spring }

lemma collect_stop (cfg : Settings) (rnd : List Bool → ℝ) (path : List Bool)
    (x y len angleDeg : ℝ) (depthLeft : ℤ) (thick : ℝ)
    (h : depthLeft ≤ 0 ∨ len < 2) :
    collect cfg rnd path x y len angleDeg depthLeft thick = [] := by
  rw [collect]
  exact dif_pos h

lemma collect_go (cfg : Settings) (rnd : List Bool → ℝ) (path : List Bool)
    (x y len angleDeg : ℝ) (depthLeft : ℤ) (thick : ℝ)
    (h : ¬(depthLeft ≤ 0 ∨ len < 2)) :
    collect cfg rnd path x y len angleDeg depthLeft thick =
      let a := (angleDeg + randAngle cfg rnd path) * Real.pi / 180
      let x2 := x + len * Real.cos a
      let y2 := y - len * Real.sin a
      Segment.mk x y x2 y2 thick depthLeft cfg.depth ::
        (collect cfg rnd (path ++ [false]) x2 y2 (len * cfg.shrink)
          (angleDeg - cfg.angle) (depthLeft - 1) (thick * 0.75) ++
        collect cfg rnd (path ++ [true]) x2 y2 (len * cfg.shrink)
          (angleDeg + cfg.angle) (depthLeft - 1) (thick * 0.75)) := by
  rw [collect]
  exact dif_neg h

lemma collect_length_le (cfg : Settings) (rnd : List Bool → ℝ) :
    ∀ (k : ℕ) (depthLeft : ℤ), depthLeft.toNat ≤ k →
    ∀ (path : List Bool) (x y len angleDeg thick : ℝ),
      (collect cfg rnd path x y len angleDeg depthLeft thick).length ≤
        2 ^ depthLeft.toNat - 1 := by
  intro k
  induction k with
  | zero =>
    intro d hd path x y len ang th
    have h0 : d ≤ 0 := by omega
    rw [collect_stop cfg rnd path x y len ang d th (Or.inl h0)]
    simp
  | succ k ih =>
    intro d hd path x y len ang th
    by_cases hstop : d ≤ 0 ∨ len < 2
    · rw [collect_stop cfg rnd path x y len ang d th hstop]
      simp
    · rw [collect_go cfg rnd path x y len ang d th hstop]
      have hd1 : 0 < d := by
        rcases not_or.mp hstop with ⟨h1, _⟩
        omega
      have hle : (d - 1).toNat ≤ k := by omega
      have hL := ih (d - 1) hle (path ++ [false])
        (x + len * Real.cos ((ang + randAngle cfg rnd path) * Real.pi / 180))
        (y - len * Real.sin ((ang + randAngle cfg rnd path) * Real.pi / 180))
        (len * cfg.shrink) (ang - cfg.angle) (th * 0.75)
      have hR := ih (d - 1) hle (path ++ [true])
        (x + len * Real.cos ((ang + randAngle cfg rnd path) * Real.pi / 180))
        (y - len * Real.sin ((ang + randAngle cfg rnd path) * Real.pi / 180))
        (len * cfg.shrink) (ang + cfg.angle) (th * 0.75)
      simp only [List.length_cons, List.length_append]
      have hpow : 2 ^ (d - 1).toNat * 2 = 2 ^ d.toNat := by
        have : (d - 1).toNat + 1 = d.toNat := by omega
        rw [← this, pow_succ]
      have hpos : 1 ≤ 2 ^ (d - 1).toNat := Nat.one_le_two_pow
      omega

/-- Claim C1: for every configuration with depth at least 1 and shrink
below 1, the geometry builder terminates (collect is a total function)
with at most 2 ^ (depth + 1) - 1 segments, and the recursion at a node
emits nothing exactly when the remaining depth is at most 0 or the
incoming length is below 2. -/
theorem c1_builder_terminates_bounded (cfg : Settings) (w h : ℝ)
    (rnd : List Bool → ℝ) (h1 : 1 ≤ cfg.depth) (h2 : cfg.shrink < 1) :
    (buildSegmentsList cfg w h rnd).length ≤ 2 ^ (cfg.depth.toNat + 1) - 1 ∧
    (∀ (path : List Bool) (x y len angleDeg : ℝ) (d : ℤ) (thick : ℝ),
      collect cfg rnd path x y len angleDeg d thick = [] ↔
        d ≤ 0 ∨ len < 2) := by
  constructor
  · have hb := collect_length_le cfg rnd cfg.depth.toNat cfg.depth le_rfl
      [] (w / 2) (h - 20) cfg.length 90 cfg.thickness
    have hmono : 2 ^ cfg.depth.toNat - 1 ≤ 2 ^ (cfg.depth.toNat + 1) - 1 := by
      have : (2 : ℕ) ^ cfg.depth.toNat ≤ 2 ^ (cfg.depth.toNat + 1) :=
        Nat.pow_le_pow_right (by norm_num) (by omega)
      omega
    exact le_trans hb hmono
  · intro path x y len ang d th
    constructor
    · intro heq
      by_contra hstop
      rw [collect_go cfg rnd path x y len ang d th hstop] at heq
      simp at heq
    · intro hstop
      exact collect_stop cfg rnd path x y len ang d th hstop

/-- Witness for C1 at the default configuration. -/
theorem c1_witness :
    1 ≤ defaultSettings.depth ∧ defaultSettings.shrink < 1 ∧
    (buildSegmentsList defaultSettings 1000 650 (fun _ => 0)).length ≤
      2 ^ (defaultSettings.depth.toNat + 1) - 1 :=
  ⟨by norm_num [defaultSettings], by norm_num [defaultSettings],
    (c1_builder_terminates_bounded defaultSettings 1000 650 (fun _ => 0)
      (by norm_num [defaultSettings]) (by norm_num [defaultSettings])).1⟩

lemma growAdvance_ge (cfg : Settings) (total g : ℕ) :
    g ≤ growAdvance cfg total g := by
  unfold growAdvance
  split <;> omega

lemma growIter_closed_form (cfg : Settings) (hg : cfg.growAnimation = true)
    (hs : cfg.growSpeed = 80) :
    ∀ k, growIter cfg 500 k = min (80 * k) 560 := by
  intro k
  induction k with
  | zero => simp [growIter]
  | succ k ih =>
    show growAdvance cfg 500 (growIter cfg 500 k) = _
    rw [ih]
    unfold growAdvance
    simp only [hg, hs, eq_self_iff_true, true_and, min_def]
    split_ifs <;> omega

/-- Claim C2: with grow animation enabled, the reveal cutoff (the clamped
limit drawSegmentsFrame draws up to) is monotonically non-decreasing
across consecutive frames and never exceeds the segment count; the raw
counter is advanced by growSpeed only while it has not reached the
segment count, and with grow speed 80 and 500 segments the cutoff
sequence is min (80 k) 500, i.e. 0, 80, 160, ... clamped at 500. -/
theorem c2_reveal_cutoff (cfg : Settings) (total : ℕ)
    (hg : cfg.growAnimation = true) :
    (∀ k, revealLimit cfg total (growIter cfg total k) ≤
      revealLimit cfg total (growIter cfg total (k + 1))) ∧
    (∀ k, revealLimit cfg total (growIter cfg total k) ≤ total) ∧
    (∀ k, (growIter cfg total k < total →
        growIter cfg total (k + 1) = growIter cfg total k + cfg.growSpeed) ∧
      (total ≤ growIter cfg total k →
        growIter cfg total (k + 1) = growIter cfg total k)) ∧
    (cfg.growSpeed = 80 → total = 500 →
      ∀ k, revealLimit cfg total (growIter cfg total k) = min (80 * k) 500) := by
  have hlim : ∀ g, revealLimit cfg total g =
      if total ≤ g then total else g := by
    intro g
    simp only [revealLimit, clamp, hg, if_true, min_def, max_def]
    split_ifs <;> omega
  have hrec : ∀ k, growIter cfg total (k + 1) =
      growAdvance cfg total (growIter cfg total k) := fun _ => rfl
  refine ⟨?_, ?_, ?_, ?_⟩
  · intro k
    have h1 := growAdvance_ge cfg total (growIter cfg total k)
    rw [hlim, hlim, hrec]
    split_ifs <;> omega
  · intro k
    rw [hlim]
    split_ifs <;> omega
  · intro k
    constructor
    · intro hlt
      rw [hrec]
      unfold growAdvance
      simp only [hg, eq_self_iff_true, true_and]
      rw [if_pos hlt]
    · intro hge
      rw [hrec]
      unfold growAdvance
      simp only [hg, eq_self_iff_true, true_and]
      rw [if_neg (by omega)]
  · intro hs ht k
    subst ht
    rw [hlim, growIter_closed_form cfg hg hs]
    simp only [min_def]
    split_ifs <;> omega

/-- Witness for C2 at the default configuration (grow speed 80) with a
500-segment list. -/
theorem c2_witness :
    defaultSettings.growAnimation = true ∧
    (∀ k, revealLimit defaultSettings 500 (growIter defaultSettings 500 k) =
      min (80 * k) 500) :=
  ⟨rfl, (c2_reveal_cutoff defaultSettings 500 rfl).2.2.2 rfl rfl⟩

/-- Claim C3: color resolution is a pure function of the depth ratio,
the leaf-mode flag and the preset; with leaf mode off it is always the
preset branch color; with leaf mode on the 0.55 and 0.25 thresholds
select trunk, branch and leaf colors; and the three spring examples
evaluate as the spec states. -/
theorem c3_branchColor_resolution (lm : Bool) (p : ColorPreset)
    (d1 t1 d2 t2 : ℤ) (hr : (d1 : ℚ) / (t1 : ℚ) = (d2 : ℚ) / (t2 : ℚ)) :
    branchColor lm p d1 t1 = branchColor lm p d2 t2 ∧
    (lm = false → ∀ d t : ℤ, branchColor lm p d t = (presetColors p).branch) ∧
    (lm = true →
      ((d1 : ℚ) / (t1 : ℚ) > 0.55 →
        branchColor lm p d1 t1 = (presetColors p).trunk) ∧
      (0.25 < (d1 : ℚ) / (t1 : ℚ) → (d1 : ℚ) / (t1 : ℚ) ≤ 0.55 →
        branchColor lm p d1 t1 = (presetColors p).branch) ∧
      ((d1 : ℚ) / (t1 : ℚ) ≤ 0.25 →
        branchColor lm p d1 t1 = (presetColors p).leaf)) ∧
    branchColor true .spring 9 10 = "#a16207" ∧
    branchColor true .spring 2 5 = "#16a34a" ∧
    branchColor true .spring 1 10 = "#22c55e" := by
  refine ⟨?_, ?_, ?_, by norm_num [branchColor, presetColors],
    by norm_num [branchColor, presetColors],
    by norm_num [branchColor, presetColors]⟩
  · simp only [branchColor]
    rw [hr]
  · intro hlm d t
    simp [branchColor, hlm]
  · intro hlm
    refine ⟨?_, ?_, ?_⟩
    · intro h
      simp only [branchColor, hlm, Bool.not_true, Bool.false_eq_true,
        if_false, if_pos h]
    · intro h1 h2
      simp only [branchColor, hlm, Bool.not_true, Bool.false_eq_true,
        if_false, if_neg (not_lt.mpr h2), if_pos h1]
    · intro h
      simp only [branchColor, hlm, Bool.not_true, Bool.false_eq_true,
        if_false]
      rw [if_neg (not_lt.mpr (le_trans h (by norm_num))),
        if_neg (not_lt.mpr h)]

/-- Witness for C3: the depth ratios 9/10 and 18/20 coincide and give
the same resolved color. -/
theorem c3_witness :
    (9 : ℚ) / (10 : ℚ) = (18 : ℚ) / (20 : ℚ) ∧
    branchColor true .spring 9 10 = branchColor true .spring 18 20 :=
  ⟨by norm_num,
    (c3_branchColor_resolution true .spring 9 10 18 20 (by norm_num)).1⟩

/-- Claim C4: the sway angle is 0 whenever wind animation is disabled;
when enabled it equals sin windTime * windStrength * (1 - ratio) and its
magnitude is bounded by windStrength * leafFactor. -/
theorem c4_wind_sway (cfg : Settings) (t : ℝ) (d td : ℤ)
    (hws : 0 ≤ cfg.windStrength) (hd : 0 ≤ d) (hdt : d ≤ td)
    (htd : 0 < td) :
    (cfg.animateWind = false → getWindAngle cfg t d td = 0) ∧
    (cfg.animateWind = true →
      getWindAngle cfg t d td =
        Real.sin t * cfg.windStrength * (1 - (d : ℝ) / (td : ℝ)) ∧
      |getWindAngle cfg t d td| ≤
        cfg.windStrength * (1 - (d : ℝ) / (td : ℝ))) := by
  have hlf : 0 ≤ 1 - (d : ℝ) / (td : ℝ) := by
    have htd0 : (0 : ℝ) < (td : ℝ) := by exact_mod_cast htd
    have : (d : ℝ) / (td : ℝ) ≤ 1 := by
      rw [div_le_one htd0]
      exact_mod_cast hdt
    linarith
  constructor
  · intro h
    simp [getWindAngle, h]
  · intro h
    have heq : getWindAngle cfg t d td =
        Real.sin t * cfg.windStrength * (1 - (d : ℝ) / (td : ℝ)) := by
      simp only [getWindAngle, h, Bool.not_true, Bool.false_eq_true,
        if_false]
      ring
    refine ⟨heq, ?_⟩
    rw [heq, abs_mul, abs_mul]
    have h1 : |Real.sin t| ≤ 1 := Real.abs_sin_le_one t
    have h2 : |cfg.windStrength| = cfg.windStrength := abs_of_nonneg hws
    have h3 : |1 - (d : ℝ) / (td : ℝ)| = 1 - (d : ℝ) / (td : ℝ) :=
      abs_of_nonneg hlf
    rw [h2, h3]
    nlinarith [abs_nonneg (Real.sin t), mul_nonneg hws hlf]

/-- Witness for C4 at the default configuration, time 0 and depth ratio
one half. -/
theorem c4_witness :
    0 ≤ defaultSettings.windStrength ∧ (0 : ℤ) ≤ 1 ∧ (1 : ℤ) ≤ 2 ∧
      (0 : ℤ) < 2 ∧
    (defaultSettings.animateWind = true →
      getWindAngle defaultSettings 0 1 2 =
        Real.sin 0 * defaultSettings.windStrength * (1 - (1 : ℝ) / (2 : ℝ)) ∧
      |getWindAngle defaultSettings 0 1 2| ≤
        defaultSettings.windStrength * (1 - (1 : ℝ) / (2 : ℝ))) := by
  refine ⟨by norm_num [defaultSettings], by norm_num, by norm_num,
    by norm_num, ?_⟩
  have h := (c4_wind_sway defaultSettings 0 1 2
    (by norm_num [defaultSettings]) (by norm_num) (by norm_num)
    (by norm_num)).2
  simpa using h

lemma renderedEndPoint_of_wind_zero (cfg : Settings) (t : ℝ) (s : Segment)
    (hw : getWindAngle cfg t s.depthLeft s.totalDepth = 0)
    (hnz : s.x2 ≠ s.x1 ∨ s.y2 ≠ s.y1) :
    renderedEndPoint cfg t s = (s.x2, s.y2) := by
  have hdx : ∀ z : ℂ, z = ⟨s.x2 - s.x1, -(s.y2 - s.y1)⟩ → z ≠ 0 := by
    intro z hz h0
    rw [hz, Complex.ext_iff] at h0
    simp only [Complex.zero_re, Complex.zero_im, neg_eq_zero,
      sub_eq_zero] at h0
    rcases hnz with h | h
    · exact h h0.1
    · exact h h0.2
  set z : ℂ := ⟨s.x2 - s.x1, -(s.y2 - s.y1)⟩ with hzdef
  have hz : z ≠ 0 := hdx z hzdef
  have habs : Complex.abs z =
      Real.sqrt ((s.x2 - s.x1) * (s.x2 - s.x1) +
        (s.y2 - s.y1) * (s.y2 - s.y1)) := by
    rw [Complex.abs_apply, hzdef, Complex.normSq_mk]
    ring_nf
  have habs0 : Complex.abs z ≠ 0 := Complex.abs.ne_zero hz
  have hcos : Real.cos (Complex.arg z) = (s.x2 - s.x1) / Complex.abs z := by
    rw [Complex.cos_arg hz, hzdef]
  have hsin : Real.sin (Complex.arg z) = -(s.y2 - s.y1) / Complex.abs z := by
    rw [Complex.sin_arg, hzdef]
  simp only [renderedEndPoint, atan2, hw, zero_mul, zero_div, add_zero]
  rw [← hzdef, ← habs, hcos, hsin, Prod.mk.injEq]
  constructor
  · rw [mul_div_cancel₀ _ habs0]
    ring
  · rw [mul_div_cancel₀ _ habs0]
    ring

/-- Claim C10: at the trunk base, where depthLeft equals totalDepth, the
sway angle is exactly 0 for every wind-time, strength and enable flag
(the leaf factor vanishes), so the rendered endpoint of a root segment
of nonzero extent coincides with its stored endpoint. -/
theorem c10_trunk_base_fixed (cfg : Settings) (t : ℝ) (s : Segment)
    (h1 : s.depthLeft = s.totalDepth) (h2 : s.totalDepth ≠ 0)
    (h3 : s.x2 ≠ s.x1 ∨ s.y2 ≠ s.y1) :
    getWindAngle cfg t s.depthLeft s.totalDepth = 0 ∧
    renderedEndPoint cfg t s = (s.x2, s.y2) := by
  have hcast : ((s.totalDepth : ℝ)) ≠ 0 := Int.cast_ne_zero.mpr h2
  have hw : getWindAngle cfg t s.depthLeft s.totalDepth = 0 := by
    unfold getWindAngle
    split
    · rfl
    · rw [h1, div_self hcast]
      norm_num
  exact ⟨hw, renderedEndPoint_of_wind_zero cfg t s hw h3⟩

/-- Witness for C10 on a concrete vertical root segment with wind
enabled. -/
theorem c10_witness :
    ((11 : ℤ) ≠ 0) ∧
    renderedEndPoint defaultSettings 1 ⟨500, 630, 500, 480, 10, 11, 11⟩ =
      (500, 480) := by
  refine ⟨by norm_num, ?_⟩
  have h := (c10_trunk_base_fixed defaultSettings 1
    ⟨500, 630, 500, 480, 10, 11, 11⟩ rfl (by norm_num)
    (Or.inr (by norm_num))).2
  exact h

/-- Claim C5: with depth 1, angle 25, length 150, shrink 0.67, thickness
10 and randomness 0 on a 1000 x 650 canvas, the builder emits exactly one
segment, from (500, 630) to (500, 480): direction 90 degrees with zero
randomness is perfectly vertical and y decreases by the length. The
random oracle is irrelevant because the perturbation is scaled by 0. -/
theorem c5_depth1_scenario (rnd : List Bool → ℝ) :
    buildSegmentsList
      ⟨1, 25, 150, 0.67, 10, 0, true, true, 4, 1.2, true, 80, .spring⟩
      1000 650 rnd =
      [⟨500, 630, 500, 480, 10, 1, 1⟩] := by
  have ha : ((90 : ℝ) + randAngle
      ⟨1, 25, 150, 0.67, 10, 0, true, true, 4, 1.2, true, 80, .spring⟩
      rnd []) * Real.pi / 180 = Real.pi / 2 := by
    simp only [randAngle]
    norm_num
    ring
  unfold buildSegmentsList
  dsimp only
  rw [collect_go _ rnd [] (1000 / 2) (650 - 20) 150 90 1 10 (by norm_num)]
  dsimp only
  rw [collect_stop, collect_stop]
  · rw [ha, Real.cos_pi_div_two, Real.sin_pi_div_two]
    norm_num
  · exact Or.inl (by norm_num)
  · exact Or.inl (by norm_num)

/-- Claim C9: when the canvas or its 2D context is unavailable, every
entry point (build, draw, export) returns silently, leaving the segment
list, reveal cutoff and wind-time exactly as they were; export triggers
no download. -/
theorem c9_missing_context_is_noop (cfg : Settings) (rnd : List Bool → ℝ)
    (st : AppState) (w h : ℝ) :
    buildSegments cfg none rnd st = st ∧
    buildSegments cfg (some ⟨w, h, none⟩) rnd st = st ∧
    drawTreeOnce cfg none rnd st = st ∧
    drawTreeOnce cfg (some ⟨w, h, none⟩) rnd st = st ∧
    downloadPNG none st = (st, none) :=
  ⟨rfl, rfl, rfl, rfl, rfl⟩

lemma growAdvance_self (cfg : Settings) (n : ℕ) : growAdvance cfg n n = n := by
  unfold growAdvance
  simp

/-- Claim C7: restarting the animation loop leaves the wind-time
accumulator, the reveal cutoff and the segment list unchanged; a
geometry rebuild resets the cutoff to 0; the explicit draw/redraw action
sets the cutoff to the full length of the (freshly rebuilt) segment
list and does not touch wind-time. -/
theorem c7_restart_and_redraw (cfg : Settings) (canvas : Option Canvas)
    (newHandle : ℕ) (rnd : List Bool → ℝ) (st : AppState) (w h : ℝ)
    (ctx : Ctx2D) :
    ((startLoop canvas newHandle st).windTime = st.windTime ∧
     (startLoop canvas newHandle st).growIndex = st.growIndex ∧
     (startLoop canvas newHandle st).segments = st.segments) ∧
    (buildSegments cfg (some ⟨w, h, some ctx⟩) rnd st).growIndex = 0 ∧
    ((drawTreeOnce cfg (some ⟨w, h, some ctx⟩) rnd st).growIndex =
      (drawTreeOnce cfg (some ⟨w, h, some ctx⟩) rnd st).segments.length ∧
     (drawTreeOnce cfg (some ⟨w, h, some ctx⟩) rnd st).windTime =
      st.windTime) := by
  refine ⟨?_, rfl, ?_⟩
  · rcases canvas with _ | c
    · exact ⟨rfl, rfl, rfl⟩
    · rcases hc : c.context with _ | u
      · simp [startLoop, hc]
      · simp [startLoop, hc]
  · constructor
    · show growAdvance cfg _ _ = _
      exact growAdvance_self cfg _
    · rfl

/-- Counterexample to claim C6 as stated: with wind animation disabled,
two configurations differing only in windStrength (4 vs 5) produce the
same rendered endpoint for a sample segment on the next tick, so
changing windStrength does not always alter rendered endpoints. -/
theorem c6_counterexample :
    (Settings.mk 11 25 150 0.67 10 2 true false 4 1.2 true 80
        .spring).windStrength ≠
      (Settings.mk 11 25 150 0.67 10 2 true false 5 1.2 true 80
        .spring).windStrength ∧
    renderedEndPoint
        (Settings.mk 11 25 150 0.67 10 2 true false 4 1.2 true 80 .spring)
        1 ⟨500, 630, 520, 480, 10, 3, 11⟩ =
      renderedEndPoint
        (Settings.mk 11 25 150 0.67 10 2 true false 5 1.2 true 80 .spring)
        1 ⟨500, 630, 520, 480, 10, 3, 11⟩ := by
  constructor
  · norm_num
  · simp [renderedEndPoint, getWindAngle]

lemma collect_congr (cfg cfg' : Settings) (rnd : List Bool → ℝ)
    (h1 : cfg'.depth = cfg.depth) (h2 : cfg'.angle = cfg.angle)
    (h3 : cfg'.shrink = cfg.shrink) (h4 : cfg'.randomness = cfg.randomness) :
    ∀ (k : ℕ) (d : ℤ), d.toNat ≤ k →
    ∀ (path : List Bool) (x y len ang th : ℝ),
      collect cfg' rnd path x y len ang d th =
        collect cfg rnd path x y len ang d th := by
  intro k
  induction k with
  | zero =>
    intro d hd path x y len ang th
    rw [collect_stop _ _ _ _ _ _ _ _ _ (Or.inl (by omega : d ≤ 0)),
      collect_stop _ _ _ _ _ _ _ _ _ (Or.inl (by omega : d ≤ 0))]
  | succ k ih =>
    intro d hd path x y len ang th
    by_cases hstop : d ≤ 0 ∨ len < 2
    · rw [collect_stop _ _ _ _ _ _ _ _ _ hstop,
        collect_stop _ _ _ _ _ _ _ _ _ hstop]
    · have hd1 : 0 < d := by
        rcases not_or.mp hstop with ⟨ha, _⟩
        omega
      rw [collect_go _ _ _ _ _ _ _ _ _ hstop,
        collect_go _ _ _ _ _ _ _ _ _ hstop]
      simp only [randAngle, h1, h2, h3, h4]
      simp only [ih (d - 1) (by omega)]

lemma getWindAngle_enabled (cfg : Settings) (t : ℝ) (d td : ℤ)
    (h : cfg.animateWind = true) :
    getWindAngle cfg t d td =
      Real.sin t * (cfg.windStrength * (1 - (d : ℝ) / (td : ℝ))) := by
  simp [getWindAngle, h]

lemma renderedEndPoint_eq (cfg : Settings) (t : ℝ) (s : Segment) :
    renderedEndPoint cfg t s =
      (s.x1 + Real.sqrt ((s.x2 - s.x1) * (s.x2 - s.x1) +
          (s.y2 - s.y1) * (s.y2 - s.y1)) *
        Real.cos (atan2 (-(s.y2 - s.y1)) (s.x2 - s.x1) +
          getWindAngle cfg t s.depthLeft s.totalDepth * Real.pi / 180),
       s.y1 - Real.sqrt ((s.x2 - s.x1) * (s.x2 - s.x1) +
          (s.y2 - s.y1) * (s.y2 - s.y1)) *
        Real.sin (atan2 (-(s.y2 - s.y1)) (s.x2 - s.x1) +
          getWindAngle cfg t s.depthLeft s.totalDepth * Real.pi / 180)) :=
  rfl

/-- Claim C6 (amended): changing only windStrength leaves the shape
dependency list and the built segment list identity-equal; and it does
alter the rendered endpoint on the next tick provided wind animation is
enabled, sin windTime is nonzero, both strengths lie in the slider range
0..12 and differ, and the segment has nonzero extent and lies strictly
below the trunk base. (As literally stated the claim fails, e.g. with
wind animation disabled; see the counterexample.) -/
theorem c6_wind_strength_effect (cfg : Settings) (v t w h : ℝ)
    (rnd : List Bool → ℝ) (s : Segment)
    (hwA : cfg.animateWind = true) (hsin : Real.sin t ≠ 0)
    (hws1 : 0 ≤ cfg.windStrength) (hws2 : cfg.windStrength ≤ 12)
    (hv1 : 0 ≤ v) (hv2 : v ≤ 12) (hne : cfg.windStrength ≠ v)
    (hd0 : 0 ≤ s.depthLeft) (hdlt : s.depthLeft < s.totalDepth)
    (hnz : s.x2 ≠ s.x1 ∨ s.y2 ≠ s.y1) :
    shapeDeps { cfg with windStrength := v } = shapeDeps cfg ∧
    buildSegmentsList { cfg with windStrength := v } w h rnd =
      buildSegmentsList cfg w h rnd ∧
    renderedEndPoint { cfg with windStrength := v } t s ≠
      renderedEndPoint cfg t s := by
  refine ⟨rfl, ?_, ?_⟩
  · unfold buildSegmentsList
    exact collect_congr cfg { cfg with windStrength := v } rnd rfl rfl rfl
      rfl cfg.depth.toNat cfg.depth le_rfl [] (w / 2) (h - 20) cfg.length
      90 cfg.thickness
  · have hT : (0 : ℝ) < (s.totalDepth : ℝ) := by
      exact_mod_cast (by omega : (0 : ℤ) < s.totalDepth)
    have hratio_lt : (s.depthLeft : ℝ) / (s.totalDepth : ℝ) < 1 :=
      (div_lt_one hT).mpr (by exact_mod_cast hdlt)
    have hratio_nn : 0 ≤ (s.depthLeft : ℝ) / (s.totalDepth : ℝ) :=
      div_nonneg (by exact_mod_cast hd0) hT.le
    have hlf_pos : 0 < 1 - (s.depthLeft : ℝ) / (s.totalDepth : ℝ) := by
      linarith
    have hlf_le : 1 - (s.depthLeft : ℝ) / (s.totalDepth : ℝ) ≤ 1 := by
      linarith
    have hL2 : 0 < (s.x2 - s.x1) * (s.x2 - s.x1) +
        (s.y2 - s.y1) * (s.y2 - s.y1) := by
      rcases hnz with hx | hy
      · have h1 := mul_self_pos.mpr (sub_ne_zero.mpr hx)
        nlinarith [mul_self_nonneg (s.y2 - s.y1)]
      · have h1 := mul_self_pos.mpr (sub_ne_zero.mpr hy)
        nlinarith [mul_self_nonneg (s.x2 - s.x1)]
    have hL : 0 < Real.sqrt ((s.x2 - s.x1) * (s.x2 - s.x1) +
        (s.y2 - s.y1) * (s.y2 - s.y1)) := Real.sqrt_pos.mpr hL2
    have hwA' : ({ cfg with windStrength := v } : Settings).animateWind =
        true := hwA
    intro hEq
    rw [renderedEndPoint_eq, renderedEndPoint_eq, Prod.mk.injEq,
      getWindAngle_enabled _ t _ _ hwA', getWindAngle_enabled _ t _ _ hwA]
      at hEq
    obtain ⟨hx, hy⟩ := hEq
    have hcos := mul_left_cancel₀ (ne_of_gt hL) (add_left_cancel hx)
    have hsin2 := mul_left_cancel₀ (ne_of_gt hL) (sub_right_inj.mp hy)
    have hang := Real.Angle.cos_sin_inj hcos hsin2
    obtain ⟨k, hk⟩ := Real.Angle.angle_eq_iff_two_pi_dvd_sub.mp hang
    have hδw : Real.sin t * ((v - cfg.windStrength) *
        (1 - (s.depthLeft : ℝ) / (s.totalDepth : ℝ))) * Real.pi / 180 =
        2 * Real.pi * (k : ℝ) := by
      rw [← hk]
      ring
    have hδw_ne : Real.sin t * ((v - cfg.windStrength) *
        (1 - (s.depthLeft : ℝ) / (s.totalDepth : ℝ))) ≠ 0 :=
      mul_ne_zero hsin (mul_ne_zero (sub_ne_zero.mpr (Ne.symm hne))
        (ne_of_gt hlf_pos))
    have hδw_abs : |Real.sin t * ((v - cfg.windStrength) *
        (1 - (s.depthLeft : ℝ) / (s.totalDepth : ℝ)))| ≤ 12 := by
      rw [abs_mul, abs_mul]
      have h1 : |Real.sin t| ≤ 1 := Real.abs_sin_le_one t
      have h2 : |v - cfg.windStrength| ≤ 12 :=
        abs_le.mpr ⟨by linarith, by linarith⟩
      have h3 : |1 - (s.depthLeft : ℝ) / (s.totalDepth : ℝ)| ≤ 1 :=
        abs_le.mpr ⟨by linarith, by linarith⟩
      have h4 : |v - cfg.windStrength| *
          |1 - (s.depthLeft : ℝ) / (s.totalDepth : ℝ)| ≤ 12 * 1 :=
        mul_le_mul h2 h3 (abs_nonneg _) (by norm_num)
      have h5 : |Real.sin t| * (|v - cfg.windStrength| *
          |1 - (s.depthLeft : ℝ) / (s.totalDepth : ℝ)|) ≤ 1 * (12 * 1) :=
        mul_le_mul h1 h4 (mul_nonneg (abs_nonneg _) (abs_nonneg _))
          (by norm_num)
      linarith
    obtain ⟨hδlo, hδhi⟩ := abs_le.mp hδw_abs
    have hπ := Real.pi_pos
    rcases eq_or_ne k 0 with hk0 | hk0
    · rw [hk0] at hδw
      have h0 : Real.sin t * ((v - cfg.windStrength) *
          (1 - (s.depthLeft : ℝ) / (s.totalDepth : ℝ))) * Real.pi = 0 := by
        push_cast at hδw
        linarith
      rcases mul_eq_zero.mp h0 with h | h
      · exact hδw_ne h
      · exact Real.pi_ne_zero h
    · have hk2 : k ≥ 1 ∨ k ≤ -1 := by omega
      rcases hk2 with hk2 | hk2
      · have hk1 : (1 : ℝ) ≤ (k : ℝ) := by exact_mod_cast hk2
        have e1 : Real.sin t * ((v - cfg.windStrength) *
            (1 - (s.depthLeft : ℝ) / (s.totalDepth : ℝ))) * Real.pi ≤
            12 * Real.pi :=
          mul_le_mul_of_nonneg_right hδhi hπ.le
        have e2 : Real.pi * 1 ≤ Real.pi * (k : ℝ) :=
          mul_le_mul_of_nonneg_left hk1 hπ.le
        linarith [hδw]
      · have hk1 : (k : ℝ) ≤ -1 := by exact_mod_cast hk2
        have e1 : (-12) * Real.pi ≤ Real.sin t * ((v - cfg.windStrength) *
            (1 - (s.depthLeft : ℝ) / (s.totalDepth : ℝ))) * Real.pi :=
          mul_le_mul_of_nonneg_right hδlo hπ.le
        have e2 : Real.pi * (k : ℝ) ≤ Real.pi * (-1) :=
          mul_le_mul_of_nonneg_left hk1 hπ.le
        linarith [hδw]

/-- Witness for the amended C6 at the default configuration, strength
changed from 4 to 5, wind time pi/2 and a slanted non-root segment. -/
theorem c6_witness :
    Real.sin (Real.pi / 2) ≠ 0 ∧
    defaultSettings.animateWind = true ∧
    defaultSettings.windStrength ≠ 5 ∧
    buildSegmentsList { defaultSettings with windStrength := 5 } 1000 650
        (fun _ => 0) =
      buildSegmentsList defaultSettings 1000 650 (fun _ => 0) ∧
    renderedEndPoint { defaultSettings with windStrength := 5 }
        (Real.pi / 2) ⟨500, 630, 520, 480, 10, 3, 11⟩ ≠
      renderedEndPoint defaultSettings (Real.pi / 2)
        ⟨500, 630, 520, 480, 10, 3, 11⟩ := by
  have hsin : Real.sin (Real.pi / 2) ≠ 0 := by
    rw [Real.sin_pi_div_two]
    norm_num
  have h := c6_wind_strength_effect defaultSettings 5 (Real.pi / 2) 1000 650
    (fun _ => 0) ⟨500, 630, 520, 480, 10, 3, 11⟩ rfl hsin
    (by norm_num [defaultSettings]) (by norm_num [defaultSettings])
    (by norm_num) (by norm_num) (by norm_num [defaultSettings])
    (by norm_num) (by norm_num) (Or.inl (by norm_num))
  exact ⟨hsin, rfl, by norm_num [defaultSettings], h.2.1, h.2.2⟩

/-- The recursive branch structure described by the data-model section
of the spec: a node is one drawable segment together with its left and
right subtrees. Spec-side companion type for the pre-order claim C8. -/
inductive BranchTree
  | leaf : BranchTree
  | node : Segment → BranchTree → BranchTree → BranchTree

open scoped Classical in
/-- Spec-side companion of collect for C8: the same subdivision recursion
but returning the branch tree instead of the flat list, so that the
order of the emitted list can be compared with a pre-order traversal. -/
noncomputable def specBranchTree (cfg : Settings) (rnd : List Bool → ℝ)
    (path : List Bool) (x y len angleDeg : ℝ) (depthLeft : ℤ)
    (thick : ℝ) : BranchTree :=
  if h : depthLeft ≤ 0 ∨ len < 2 then .leaf
  else
    let randomAngle := randAngle cfg rnd path
    let a := (angleDeg + randomAngle) * Real.pi / 180
    let x2 := x + len * Real.cos a
    let y2 := y - len * Real.sin a
    BranchTree.node ⟨x, y, x2, y2, thick, depthLeft, cfg.depth⟩
      (specBranchTree cfg rnd (path ++ [false]) x2 y2 (len * cfg.shrink)
        (angleDeg - cfg.angle) (depthLeft - 1) (thick * 0.75))
      (specBranchTree cfg rnd (path ++ [true]) x2 y2 (len * cfg.shrink)
        (angleDeg + cfg.angle) (depthLeft - 1) (thick * 0.75))
termination_by depthLeft.toNat
decreasing_by
  · simp only [not_or, not_le] at h
    omega
  · simp only [not_or, not_le] at h
    omega

/-- Pre-order flattening of a branch tree: the node segment first, then
the whole left subtree, then the whole right subtree. -/
def preorderFlatten : BranchTree → List Segment
  | .leaf => []
  | .node s l r => s :: (preorderFlatten l ++ preorderFlatten r)

/-- Two segments agree on everything except the randomly perturbed
endpoint geometry. -/
def sameShape (a b : Segment) : Prop :=
  a.thick = b.thick ∧ a.depthLeft = b.depthLeft ∧ a.totalDepth = b.totalDepth

lemma specBranchTree_stop (cfg : Settings) (rnd : List Bool → ℝ)
    (path : List Bool) (x y len angleDeg : ℝ) (depthLeft : ℤ) (thick : ℝ)
    (h : depthLeft ≤ 0 ∨ len < 2) :
    specBranchTree cfg rnd path x y len angleDeg depthLeft thick = .leaf := by
  rw [specBranchTree]
  exact dif_pos h

lemma specBranchTree_go (cfg : Settings) (rnd : List Bool → ℝ)
    (path : List Bool) (x y len angleDeg : ℝ) (depthLeft : ℤ) (thick : ℝ)
    (h : ¬(depthLeft ≤ 0 ∨ len < 2)) :
    specBranchTree cfg rnd path x y len angleDeg depthLeft thick =
      let a := (angleDeg + randAngle cfg rnd path) * Real.pi / 180
      let x2 := x + len * Real.cos a
      let y2 := y - len * Real.sin a
      BranchTree.node ⟨x, y, x2, y2, thick, depthLeft, cfg.depth⟩
        (specBranchTree cfg rnd (path ++ [false]) x2 y2 (len * cfg.shrink)
          (angleDeg - cfg.angle) (depthLeft - 1) (thick * 0.75))
        (specBranchTree cfg rnd (path ++ [true]) x2 y2 (len * cfg.shrink)
          (angleDeg + cfg.angle) (depthLeft - 1) (thick * 0.75)) := by
  rw [specBranchTree]
  exact dif_neg h

lemma collect_eq_preorder (cfg : Settings) (rnd : List Bool → ℝ) :
    ∀ (k : ℕ) (d : ℤ), d.toNat ≤ k →
    ∀ (path : List Bool) (x y len ang th : ℝ),
      collect cfg rnd path x y len ang d th =
        preorderFlatten (specBranchTree cfg rnd path x y len ang d th) := by
  intro k
  induction k with
  | zero =>
    intro d hd path x y len ang th
    rw [collect_stop _ _ _ _ _ _ _ _ _ (Or.inl (by omega : d ≤ 0)),
      specBranchTree_stop _ _ _ _ _ _ _ _ _ (Or.inl (by omega : d ≤ 0))]
    rfl
  | succ k ih =>
    intro d hd path x y len ang th
    by_cases hstop : d ≤ 0 ∨ len < 2
    · rw [collect_stop _ _ _ _ _ _ _ _ _ hstop,
        specBranchTree_stop _ _ _ _ _ _ _ _ _ hstop]
      rfl
    · have hd1 : 0 < d := by
        rcases not_or.mp hstop with ⟨ha, _⟩
        omega
      rw [collect_go _ _ _ _ _ _ _ _ _ hstop,
        specBranchTree_go _ _ _ _ _ _ _ _ _ hstop]
      dsimp only [preorderFlatten]
      rw [ih (d - 1) (by omega), ih (d - 1) (by omega)]

lemma collect_sameShape (cfg : Settings) (rnd1 rnd2 : List Bool → ℝ) :
    ∀ (k : ℕ) (d : ℤ), d.toNat ≤ k →
    ∀ (len ang th : ℝ) (p1 : List Bool) (x1 y1 : ℝ) (p2 : List Bool)
      (x2 y2 : ℝ),
      List.Forall₂ sameShape (collect cfg rnd1 p1 x1 y1 len ang d th)
        (collect cfg rnd2 p2 x2 y2 len ang d th) := by
  intro k
  induction k with
  | zero =>
    intro d hd len ang th p1 x1 y1 p2 x2 y2
    rw [collect_stop _ _ _ _ _ _ _ _ _ (Or.inl (by omega : d ≤ 0)),
      collect_stop _ _ _ _ _ _ _ _ _ (Or.inl (by omega : d ≤ 0))]
    exact List.Forall₂.nil
  | succ k ih =>
    intro d hd len ang th p1 x1 y1 p2 x2 y2
    by_cases hstop : d ≤ 0 ∨ len < 2
    · rw [collect_stop _ _ _ _ _ _ _ _ _ hstop,
        collect_stop _ _ _ _ _ _ _ _ _ hstop]
      exact List.Forall₂.nil
    · have hd1 : 0 < d := by
        rcases not_or.mp hstop with ⟨ha, _⟩
        omega
      rw [collect_go _ _ _ _ _ _ _ _ _ hstop,
        collect_go _ _ _ _ _ _ _ _ _ hstop]
      dsimp only
      exact List.Forall₂.cons ⟨rfl, rfl, rfl⟩
        (List.rel_append (ih (d - 1) (by omega) _ _ _ _ _ _ _ _ _)
          (ih (d - 1) (by omega) _ _ _ _ _ _ _ _ _))

/-- Claim C8: the built list is the pre-order flattening of the branch
tree (each segment precedes its subtree, and the left subtree, branching
at angleDeg minus the configured angle, precedes the right subtree
entirely); two builds with the same configuration produce lists of the
same shape in the same order, differing only in the per-segment random
perturbation, which stays within plus-minus randomness degrees. -/
theorem c8_preorder_and_stable_order (cfg : Settings)
    (rnd rnd1 rnd2 : List Bool → ℝ) (w h : ℝ) :
    (∀ (path : List Bool) (x y len ang th : ℝ) (d : ℤ),
      collect cfg rnd path x y len ang d th =
        preorderFlatten (specBranchTree cfg rnd path x y len ang d th)) ∧
    List.Forall₂ sameShape (buildSegmentsList cfg w h rnd1)
      (buildSegmentsList cfg w h rnd2) ∧
    (∀ path : List Bool, 0 ≤ rnd path → rnd path ≤ 1 →
      0 ≤ cfg.randomness → |randAngle cfg rnd path| ≤ cfg.randomness) := by
  refine ⟨?_, ?_, ?_⟩
  · intro path x y len ang th d
    exact collect_eq_preorder cfg rnd d.toNat d le_rfl path x y len ang th
  · unfold buildSegmentsList
    exact collect_sameShape cfg rnd1 rnd2 cfg.depth.toNat cfg.depth le_rfl
      cfg.length 90 cfg.thickness [] (w / 2) (h - 20) [] (w / 2) (h - 20)
  · intro path h0 h1 hr
    unfold randAngle
    rw [abs_mul]
    have h2 : |rnd path * 2 - 1| ≤ 1 :=
      abs_le.mpr ⟨by linarith, by linarith⟩
    have h3 : |cfg.randomness| = cfg.randomness := abs_of_nonneg hr
    rw [h3]
    calc |rnd path * 2 - 1| * cfg.randomness ≤ 1 * cfg.randomness :=
          mul_le_mul_of_nonneg_right h2 hr
      _ = cfg.randomness := one_mul _

/-- Witness for C8 with the zero random oracle at the default
configuration. -/
theorem c8_witness :
    (0 : ℝ) ≤ 0 ∧ (0 : ℝ) ≤ 1 ∧ 0 ≤ defaultSettings.randomness ∧
    |randAngle defaultSettings (fun _ => 0) []| ≤
      defaultSettings.randomness := by
  refine ⟨le_rfl, by norm_num, by norm_num [defaultSettings], ?_⟩
  exact (c8_preorder_and_stable_order defaultSettings (fun _ => 0)
    (fun _ => 0) (fun _ => 0) 1000 650).2.2 [] le_rfl (by norm_num)
    (by norm_num [defaultSettings])

end FractalTree
